import Mathlib

/-!
Shallow embedding of `wavepcm` (src/src/lib.rs), a WAVE-PCM encoder/decoder.

Modelling conventions:
* A byte is a `Nat` (values of interest are `< 256`); `[u8; 2]` and `[u8; 4]`
  become pairs/quadruples of `Nat`, the payload `Vec<u8>` a `List Nat`.
* Rust integer arithmetic is modelled with explicit bound checks: a `u32`/`u16`
  arithmetic overflow is a debug-build panic (`EncodeResult.panic`), a failing
  `try_into` is a returned error (`EncodeResult.overflow`), mirroring that the
  source only surfaces `TryFromIntError` through `?`.
* The byte source of `decode` is a `List Nat`; `Read::read` into a zero
  initialised buffer at end of input leaves the unread suffix zero, so `read2`
  and `read4` zero-fill, exactly as `BufReader<File>` behaves for this program.
* `String::from_utf8(v)?` followed by comparison with an ASCII literal is
  modelled as UTF-8 validity of the bytes (`validUtf8`) followed by byte-list
  equality with the literal's bytes: UTF-8 decoding is injective, and a decoded
  string equals an ASCII literal iff the bytes equal the literal's bytes.
-/

/-- Decidable equality of `Except` results, so that concrete runs of the
model can be evaluated inside proofs. -/
instance {e a : Type} [DecidableEq e] [DecidableEq a] : DecidableEq (Except e a) :=
  fun x y =>
  match x, y with
  | .error u, .error v =>
    if h : u = v then .isTrue (congrArg Except.error h)
    else .isFalse (fun hh => h (Except.error.inj hh))
  | .error _, .ok _ => .isFalse (fun hh => Except.noConfusion hh)
  | .ok _, .error _ => .isFalse (fun hh => Except.noConfusion hh)
  | .ok u, .ok v =>
    if h : u = v then .isTrue (congrArg Except.ok h)
    else .isFalse (fun hh => h (Except.ok.inj hh))

/-- Two raw bytes, the model of `[u8; 2]`. -/
abbrev Byte2 := Nat × Nat

/-- Four raw bytes, the model of `[u8; 4]`. -/
abbrev Byte4 := Nat × Nat × Nat × Nat

/-- Little-endian encoding of a `u16` value, `u16::to_le_bytes`. -/
def u16ToLE (n : Nat) : Byte2 := (n % 256, n / 256 % 256)

/-- Little-endian encoding of a `u32` value, `u32::to_le_bytes`. -/
def u32ToLE (n : Nat) : Byte4 :=
  (n % 256, n / 256 % 256, n / 65536 % 256, n / 16777216 % 256)

/-- Little-endian decoding of two bytes, `u16::from_le_bytes`. -/
def u16FromLE (b : Byte2) : Nat := b.1 + 256 * b.2

/-- Little-endian decoding of four bytes, `u32::from_le_bytes`. -/
def u32FromLE (b : Byte4) : Nat :=
  b.1 + 256 * b.2.1 + 65536 * b.2.2.1 + 16777216 * b.2.2.2

/-- The bytes of a `[u8; 4]` in order, as used by `self.field.to_vec()`. -/
def byte4ToList (b : Byte4) : List Nat := [b.1, b.2.1, b.2.2.1, b.2.2.2]

/-- The bytes of a `[u8; 2]` in order. -/
def byte2ToList (b : Byte2) : List Nat := [b.1, b.2]

/-- Length of a `[u8; 4]` value; `<[u8; 4]>::len()` is the constant 4. -/
def byte4Len (_ : Byte4) : Nat := 4

/-- Length of a `[u8; 2]` value; `<[u8; 2]>::len()` is the constant 2. -/
def byte2Len (_ : Byte2) : Nat := 2

/-- ASCII bytes of the string RIFF. -/
def riffBytes : List Nat := [82, 73, 70, 70]

/-- ASCII bytes of the string WAVE. -/
def waveBytes : List Nat := [87, 65, 86, 69]

/-- ASCII bytes of the string fmt followed by a space. -/
def fmtBytes : List Nat := [102, 109, 116, 32]

/-- ASCII bytes of the string data. -/
def dataBytes : List Nat := [100, 97, 116, 97]

/-- Whether a byte is a UTF-8 continuation byte (0x80 to 0xBF). -/
def isUtf8Cont (b : Nat) : Bool := 128 ≤ b && b ≤ 191

/-- UTF-8 validity of a byte sequence, the test performed by
`String::from_utf8` (RFC 3629 well-formedness, surrogates and overlong
encodings excluded). -/
def validUtf8 : List Nat → Bool
  | [] => true
  | b :: rest =>
    if b ≤ 127 then validUtf8 rest
    else if 194 ≤ b && b ≤ 223 then
      match rest with
      | b1 :: rest1 => isUtf8Cont b1 && validUtf8 rest1
      | [] => false
    else if b = 224 then
      match rest with
      | b1 :: b2 :: rest2 =>
          (160 ≤ b1 && b1 ≤ 191) && isUtf8Cont b2 && validUtf8 rest2
      | _ => false
    else if (225 ≤ b && b ≤ 236) || b = 238 || b = 239 then
      match rest with
      | b1 :: b2 :: rest2 => isUtf8Cont b1 && isUtf8Cont b2 && validUtf8 rest2
      | _ => false
    else if b = 237 then
      match rest with
      | b1 :: b2 :: rest2 =>
          (128 ≤ b1 && b1 ≤ 159) && isUtf8Cont b2 && validUtf8 rest2
      | _ => false
    else if b = 240 then
      match rest with
      | b1 :: b2 :: b3 :: rest3 =>
          (144 ≤ b1 && b1 ≤ 191) && isUtf8Cont b2 && isUtf8Cont b3 &&
            validUtf8 rest3
      | _ => false
    else if 241 ≤ b && b ≤ 243 then
      match rest with
      | b1 :: b2 :: b3 :: rest3 =>
          isUtf8Cont b1 && isUtf8Cont b2 && isUtf8Cont b3 && validUtf8 rest3
      | _ => false
    else if b = 244 then
      match rest with
      | b1 :: b2 :: b3 :: rest3 =>
          (128 ≤ b1 && b1 ≤ 143) && isUtf8Cont b2 && isUtf8Cont b3 &&
            validUtf8 rest3
      | _ => false
    else false

/-- The `Format` struct: the thirteen raw header fields plus the payload. -/
structure Format where
  riff_tag : Byte4
  total_size : Byte4
  wave_tag : Byte4
  fmt_chunk_tag : Byte4
  fmt_chunk_size : Byte4
  fmt_code : Byte2
  num_channels : Byte2
  sampling_rate : Byte4
  byte_rate : Byte4
  block_alignment : Byte2
  bits_per_sample : Byte2
  data_tag : Byte4
  data_size : Byte4
  data : List Nat
deriving DecidableEq, Repr

/-- Outcome of `Format::encode`: a value, a returned `TryFromIntError`
propagated by `?` (the payload length does not fit `u32`), or a debug-build
arithmetic-overflow panic (release builds wrap instead; in neither case is an
error value returned). -/
inductive EncodeResult where
  | ok (f : Format)
  | overflow
  | panic
deriving DecidableEq, Repr

/-- The record built by the final `Ok(Format { .. })` expression of
`Format::encode`, on the path where no conversion fails and no arithmetic
overflows. -/
def encodeFormat (data : List Nat) (num_channels sampling_rate bits_per_sample : Nat) :
    Format where
  riff_tag := (82, 73, 70, 70)
  total_size := u32ToLE (data.length + 36)
  wave_tag := (87, 65, 86, 69)
  fmt_chunk_tag := (102, 109, 116, 32)
  fmt_chunk_size := u32ToLE 16
  fmt_code := u16ToLE 1
  num_channels := u16ToLE num_channels
  sampling_rate := u32ToLE sampling_rate
  byte_rate := u32ToLE (sampling_rate * num_channels * bits_per_sample / 8)
  block_alignment := u16ToLE (num_channels * bits_per_sample / 8)
  bits_per_sample := u16ToLE bits_per_sample
  data_tag := (100, 97, 116, 97)
  data_size := u32ToLE data.length
  data := data

/-- Model of `Format::encode`, with the source's evaluation order: the
`data.len().try_into()?` conversion to `u32` (the only fallible step), then
`size + 36` in `u32`, then `sampling_rate * num_channels * bits_per_sample`
computed left to right in `u32`, then `num_channels * bits_per_sample` in
`u16`; each unchecked operation panics on overflow in a debug build. -/
def encode (data : List Nat) (num_channels sampling_rate bits_per_sample : Nat) :
    EncodeResult :=
  if 4294967296 ≤ data.length then .overflow
  else if 4294967296 ≤ data.length + 36 then .panic
  else if 4294967296 ≤ sampling_rate * num_channels then .panic
  else if 4294967296 ≤ sampling_rate * num_channels * bits_per_sample then .panic
  else if 65536 ≤ num_channels * bits_per_sample then .panic
  else .ok (encodeFormat data num_channels sampling_rate bits_per_sample)

/-- Error type of the model of `decode`; the only fallible step in the source
after opening the file is the `u32` to `usize` conversion inside `readn`,
which cannot fail on a 64-bit target, so this type is never produced. -/
inductive DecodeErr where
  | sizeConv
deriving DecidableEq, Repr

/-- Model of `read2`: a single `Read::read` into a zero-initialised 2-byte
buffer; at end of input the unread suffix stays zero. Returns the buffer and
the rest of the source. -/
def read2 : List Nat → Byte2 × List Nat
  | [] => ((0, 0), [])
  | [a] => ((a, 0), [])
  | a :: b :: rest => ((a, b), rest)

/-- Model of `read4`: a single `Read::read` into a zero-initialised 4-byte
buffer; at end of input the unread suffix stays zero. -/
def read4 : List Nat → Byte4 × List Nat
  | [] => ((0, 0, 0, 0), [])
  | [a] => ((a, 0, 0, 0), [])
  | [a, b] => ((a, b, 0, 0), [])
  | [a, b, c] => ((a, b, c, 0), [])
  | a :: b :: c :: d :: rest => ((a, b, c, d), rest)

/-- Model of `readn`: `take(nbytes)` then `read_to_end`, reading at most
`nbytes` bytes and fewer when the source is shorter. The `u32` to `usize`
conversion of `nbytes` cannot fail on a 64-bit target, so the result is
always `Ok`. -/
def readn (bs : List Nat) (nbytes : Nat) : Except DecodeErr (List Nat × List Nat) :=
  .ok (bs.take nbytes, bs.drop nbytes)

/-- Model of `Format::decode` on an already-opened byte source: thirteen
fixed-width raw reads in field order, then a payload read bounded by the
little-endian value of `data_size`. No field is validated. -/
def decode (bs : List Nat) : Except DecodeErr Format :=
  let p1 := read4 bs
  let p2 := read4 p1.2
  let p3 := read4 p2.2
  let p4 := read4 p3.2
  let p5 := read4 p4.2
  let p6 := read2 p5.2
  let p7 := read2 p6.2
  let p8 := read4 p7.2
  let p9 := read4 p8.2
  let p10 := read2 p9.2
  let p11 := read2 p10.2
  let p12 := read4 p11.2
  let p13 := read4 p12.2
  match readn p13.2 (u32FromLE p13.1) with
  | .error e => .error e
  | .ok (data, _) =>
    .ok {
      riff_tag := p1.1
      total_size := p2.1
      wave_tag := p3.1
      fmt_chunk_tag := p4.1
      fmt_chunk_size := p5.1
      fmt_code := p6.1
      num_channels := p7.1
      sampling_rate := p8.1
      byte_rate := p9.1
      block_alignment := p10.1
      bits_per_sample := p11.1
      data_tag := p12.1
      data_size := p13.1
      data := data }

/-- Error value of the model of `Format::check`, one constructor per early
`return Err(..)` site in source order; the `Utf8` constructors are the
`FromUtf8Error` values propagated by `?`. -/
inductive CheckErr where
  | riffTagUtf8
  | riffTag
  | totalSizeLen
  | waveTagUtf8
  | waveTag
  | fmtChunkTagUtf8
  | fmtChunkTag
  | fmtChunkSize
  | fmtCode
  | numChannelsLen
  | samplingRateLen
  | byteRateLen
  | blockAlignmentLen
  | bitsPerSampleLen
  | dataTagUtf8
  | dataTag
  | dataSizeLen
  | dataEmpty
deriving DecidableEq, Repr

/-- Model of `Format::check`: the source's chain of early returns in order.
Tag fields are decoded with `String::from_utf8` (modelled by `validUtf8`
followed by byte equality) and compared with their ASCII constants;
`fmt_chunk_size` and `fmt_code` are decoded little-endian and compared with
16 and 1; the remaining numeric fields only have their array length compared
with its fixed value (a check that can never fail); the payload must be
non-empty. -/
def check (f : Format) : Except CheckErr Unit :=
  if ¬ validUtf8 (byte4ToList f.riff_tag) then .error .riffTagUtf8
  else if byte4ToList f.riff_tag ≠ riffBytes then .error .riffTag
  else if byte4Len f.total_size ≠ 4 then .error .totalSizeLen
  else if ¬ validUtf8 (byte4ToList f.wave_tag) then .error .waveTagUtf8
  else if byte4ToList f.wave_tag ≠ waveBytes then .error .waveTag
  else if ¬ validUtf8 (byte4ToList f.fmt_chunk_tag) then .error .fmtChunkTagUtf8
  else if byte4ToList f.fmt_chunk_tag ≠ fmtBytes then .error .fmtChunkTag
  else if u32FromLE f.fmt_chunk_size ≠ 16 then .error .fmtChunkSize
  else if u16FromLE f.fmt_code ≠ 1 then .error .fmtCode
  else if byte2Len f.num_channels ≠ 2 then .error .numChannelsLen
  else if byte4Len f.sampling_rate ≠ 4 then .error .samplingRateLen
  else if byte4Len f.byte_rate ≠ 4 then .error .byteRateLen
  else if byte2Len f.block_alignment ≠ 2 then .error .blockAlignmentLen
  else if byte2Len f.bits_per_sample ≠ 2 then .error .bitsPerSampleLen
  else if ¬ validUtf8 (byte4ToList f.data_tag) then .error .dataTagUtf8
  else if byte4ToList f.data_tag ≠ dataBytes then .error .dataTag
  else if byte4Len f.data_size ≠ 4 then .error .dataSizeLen
  else if f.data = [] then .error .dataEmpty
  else .ok ()

/-- The violations reported by one call of `check`: none on success, the
single returned error otherwise. -/
def checkViolations (f : Format) : List CheckErr :=
  match check f with
  | .ok _ => []
  | .error e => [e]

/-- Modelled from the spec: the repository has no writer, so `serialize` is
the byte image of section 3 of the spec — the thirteen header fields in order
(44 bytes) followed by the payload. -/
def serialize (f : Format) : List Nat :=
  byte4ToList f.riff_tag ++ byte4ToList f.total_size ++ byte4ToList f.wave_tag ++
    byte4ToList f.fmt_chunk_tag ++ byte4ToList f.fmt_chunk_size ++
    byte2ToList f.fmt_code ++ byte2ToList f.num_channels ++
    byte4ToList f.sampling_rate ++ byte4ToList f.byte_rate ++
    byte2ToList f.block_alignment ++ byte2ToList f.bits_per_sample ++
    byte4ToList f.data_tag ++ byte4ToList f.data_size ++ f.data

/-- Concrete `Format` that is field-for-field the output of
`encode([1], 0, 44100, 16)`: every field a well-formed WAVE-PCM header value
except that `num_channels` is zero. -/
def formatZeroChannels : Format where
  riff_tag := (82, 73, 70, 70)
  total_size := u32ToLE 37
  wave_tag := (87, 65, 86, 69)
  fmt_chunk_tag := (102, 109, 116, 32)
  fmt_chunk_size := u32ToLE 16
  fmt_code := u16ToLE 1
  num_channels := (0, 0)
  sampling_rate := u32ToLE 44100
  byte_rate := u32ToLE 0
  block_alignment := (0, 0)
  bits_per_sample := u16ToLE 16
  data_tag := (100, 97, 116, 97)
  data_size := u32ToLE 1
  data := [1]

/-- Variant of `formatZeroChannels` with a different payload, used as a second
concrete zero-channel instance. -/
def formatZeroChannelsB : Format :=
  { formatZeroChannels with data := [2, 3], data_size := u32ToLE 2 }

/-- Concrete `Format` that is valid except that its `riff_tag` holds the
ASCII bytes of RIFX. -/
def formatBadRiff : Format :=
  { formatZeroChannels with riff_tag := (82, 73, 70, 88), num_channels := u16ToLE 2 }

/-- Decoding the little-endian bytes of a `u32` value recovers the value. -/
theorem u32FromLE_u32ToLE (n : Nat) (h : n < 4294967296) : u32FromLE (u32ToLE n) = n := by
  simp only [u32ToLE, u32FromLE]
  omega

/-- Decoding the little-endian bytes of a `u16` value recovers the value. -/
theorem u16FromLE_u16ToLE (n : Nat) (h : n < 65536) : u16FromLE (u16ToLE n) = n := by
  simp only [u16ToLE, u16FromLE]
  omega

/-- Decoding the serialized image of any `Format` returns it unchanged except
that the payload is cut to the length declared by its `data_size` field. -/
theorem decode_serialize (f : Format) :
    decode (serialize f) =
      .ok { f with data := f.data.take (u32FromLE f.data_size) } := by
  obtain ⟨⟨a0, a1, a2, a3⟩, ⟨b0, b1, b2, b3⟩, ⟨c0, c1, c2, c3⟩, ⟨d0, d1, d2, d3⟩,
    ⟨e0, e1, e2, e3⟩, ⟨g0, g1⟩, ⟨h0, h1⟩, ⟨i0, i1, i2, i3⟩, ⟨j0, j1, j2, j3⟩,
    ⟨k0, k1⟩, ⟨l0, l1⟩, ⟨m0, m1, m2, m3⟩, ⟨n0, n1, n2, n3⟩, data⟩ := f
  simp [decode, serialize, byte4ToList, byte2ToList, read4, read2, readn]

/-- Unfolding of `read2` to positional lookups with zero default. -/
theorem read2_eq (bs : List Nat) :
    read2 bs = ((bs.getD 0 0, bs.getD 1 0), bs.drop 2) := by
  match bs with
  | [] => rfl
  | [a] => rfl
  | a :: b :: rest => rfl

/-- Unfolding of `read4` to positional lookups with zero default. -/
theorem read4_eq (bs : List Nat) :
    read4 bs = ((bs.getD 0 0, bs.getD 1 0, bs.getD 2 0, bs.getD 3 0), bs.drop 4) := by
  match bs with
  | [] => rfl
  | [a] => rfl
  | [a, b] => rfl
  | [a, b, c] => rfl
  | a :: b :: c :: d :: rest => rfl

/-- Positional lookup after a drop is a lookup at a shifted position. -/
theorem getD_drop (bs : List Nat) (n i : Nat) :
    (bs.drop n).getD i 0 = bs.getD (n + i) 0 := by
  simp [List.getD_eq_getElem?_getD, List.getElem?_drop]

/-- Successive drops add up. -/
theorem drop_drop (bs : List Nat) (n m : Nat) :
    (bs.drop n).drop m = bs.drop (n + m) := by
  rw [List.drop_drop, Nat.add_comm]

/-- Full characterization of `decode` on an arbitrary byte source: every
header field is the raw slice of the input at its fixed offset, absent bytes
read as zero, and the payload is the remainder cut to the little-endian value
of bytes 40 to 43. -/
theorem decode_eq (bs : List Nat) :
    decode bs =
      .ok {
        riff_tag := (bs.getD 0 0, bs.getD 1 0, bs.getD 2 0, bs.getD 3 0)
        total_size := (bs.getD 4 0, bs.getD 5 0, bs.getD 6 0, bs.getD 7 0)
        wave_tag := (bs.getD 8 0, bs.getD 9 0, bs.getD 10 0, bs.getD 11 0)
        fmt_chunk_tag := (bs.getD 12 0, bs.getD 13 0, bs.getD 14 0, bs.getD 15 0)
        fmt_chunk_size := (bs.getD 16 0, bs.getD 17 0, bs.getD 18 0, bs.getD 19 0)
        fmt_code := (bs.getD 20 0, bs.getD 21 0)
        num_channels := (bs.getD 22 0, bs.getD 23 0)
        sampling_rate := (bs.getD 24 0, bs.getD 25 0, bs.getD 26 0, bs.getD 27 0)
        byte_rate := (bs.getD 28 0, bs.getD 29 0, bs.getD 30 0, bs.getD 31 0)
        block_alignment := (bs.getD 32 0, bs.getD 33 0)
        bits_per_sample := (bs.getD 34 0, bs.getD 35 0)
        data_tag := (bs.getD 36 0, bs.getD 37 0, bs.getD 38 0, bs.getD 39 0)
        data_size := (bs.getD 40 0, bs.getD 41 0, bs.getD 42 0, bs.getD 43 0)
        data := (bs.drop 44).take
          (u32FromLE (bs.getD 40 0, bs.getD 41 0, bs.getD 42 0, bs.getD 43 0)) } := by
  simp [decode, read4_eq, read2_eq, readn, getD_drop, drop_drop]

/-- Bounds that make every arithmetic step of `encode` fit its Rust width
force the success path. -/
theorem encode_eq_ok (data : List Nat) (c r b : Nat) (hb : 0 < b)
    (h1 : data.length + 36 < 4294967296) (h2 : r * c * b < 4294967296)
    (h3 : c * b < 65536) :
    encode data c r b = .ok (encodeFormat data c r b) := by
  have hrc : r * c ≤ r * c * b := Nat.le_mul_of_pos_right _ hb
  unfold encode
  rw [if_neg (by omega), if_neg (by omega), if_neg (by omega), if_neg (by omega),
    if_neg (by omega)]

/-- Any `Format` built by the success path of `encode` passes `check` as soon
as its payload is non-empty, whatever the numeric parameters were. -/
theorem check_encodeFormat (data : List Nat) (c r b : Nat) (hd : data ≠ []) :
    check (encodeFormat data c r b) = .ok () := by
  have v1 : validUtf8 [82, 73, 70, 70] = true := by decide
  have v2 : validUtf8 [87, 65, 86, 69] = true := by decide
  have v3 : validUtf8 [102, 109, 116, 32] = true := by decide
  have v4 : validUtf8 [100, 97, 116, 97] = true := by decide
  simp [check, encodeFormat, byte4ToList, byte2ToList, byte4Len, byte2Len,
    riffBytes, waveBytes, fmtBytes, dataBytes, v1, v2, v3, v4,
    u32ToLE, u16ToLE, u32FromLE, u16FromLE, hd]

/-- Claim C1: for a payload of any length and positive channel count,
sampling rate and bit depth whose derived fields fit their widths, `encode`
succeeds, and decoding the serialized byte image of its result (the bit-exact
44-byte little-endian layout) returns the very same `Format`, all thirteen
header fields and the payload included. -/
theorem encode_serialize_decode_roundtrip (data : List Nat) (c r b : Nat)
    (hc : 0 < c) (hr : 0 < r) (hb : 0 < b)
    (h1 : data.length + 36 < 4294967296) (h2 : r * c * b < 4294967296)
    (h3 : c * b < 65536) :
    encode data c r b = .ok (encodeFormat data c r b) ∧
    decode (serialize (encodeFormat data c r b)) = .ok (encodeFormat data c r b) := by
  refine ⟨encode_eq_ok data c r b hb h1 h2 h3, ?_⟩
  rw [decode_serialize]
  have hds : u32FromLE (encodeFormat data c r b).data_size = data.length := by
    show u32FromLE (u32ToLE data.length) = data.length
    exact u32FromLE_u32ToLE _ (by omega)
  rw [hds]
  have hdata : (encodeFormat data c r b).data = data := rfl
  rw [hdata, List.take_length]
  rfl

/-- Witness for C1: the round trip at payload `[7, 8]`, one channel,
16000 Hz, 16 bits per sample. -/
theorem encode_serialize_decode_roundtrip_witness :
    encode [7, 8] 1 16000 16 = .ok (encodeFormat [7, 8] 1 16000 16) ∧
    decode (serialize (encodeFormat [7, 8] 1 16000 16)) =
      .ok (encodeFormat [7, 8] 1 16000 16) :=
  encode_serialize_decode_roundtrip [7, 8] 1 16000 16 (by decide) (by decide)
    (by decide) (by decide) (by decide) (by decide)

/-- Claim C2: on valid inputs `encode` succeeds and its result stores, little
endian, `byte_rate = sampling_rate * num_channels * bits_per_sample / 8`,
`block_alignment = num_channels * bits_per_sample / 8`,
`total_size = data_size + 36`, and `data_size` equal to the payload length. -/
theorem encode_derived_fields (data : List Nat) (c r b : Nat)
    (hc : 0 < c) (hr : 0 < r) (hb : 0 < b)
    (h1 : data.length + 36 < 4294967296) (h2 : r * c * b < 4294967296)
    (h3 : c * b < 65536) :
    encode data c r b = .ok (encodeFormat data c r b) ∧
    u32FromLE (encodeFormat data c r b).byte_rate = r * c * b / 8 ∧
    u16FromLE (encodeFormat data c r b).block_alignment = c * b / 8 ∧
    u32FromLE (encodeFormat data c r b).total_size =
      u32FromLE (encodeFormat data c r b).data_size + 36 ∧
    u32FromLE (encodeFormat data c r b).data_size = data.length := by
  have hds : u32FromLE (u32ToLE data.length) = data.length :=
    u32FromLE_u32ToLE _ (by omega)
  refine ⟨encode_eq_ok data c r b hb h1 h2 h3, ?_, ?_, ?_, hds⟩
  · show u32FromLE (u32ToLE (r * c * b / 8)) = r * c * b / 8
    exact u32FromLE_u32ToLE _ (by omega)
  · show u16FromLE (u16ToLE (c * b / 8)) = c * b / 8
    exact u16FromLE_u16ToLE _ (by omega)
  · show u32FromLE (u32ToLE (data.length + 36)) = u32FromLE (u32ToLE data.length) + 36
    rw [hds, u32FromLE_u32ToLE _ (by omega)]

/-- Witness for C2: the derived fields at payload `[5]`, one channel,
16000 Hz, 16 bits per sample. -/
theorem encode_derived_fields_witness :
    encode [5] 1 16000 16 = .ok (encodeFormat [5] 1 16000 16) ∧
    u32FromLE (encodeFormat [5] 1 16000 16).byte_rate = 16000 * 1 * 16 / 8 ∧
    u16FromLE (encodeFormat [5] 1 16000 16).block_alignment = 1 * 16 / 8 ∧
    u32FromLE (encodeFormat [5] 1 16000 16).total_size =
      u32FromLE (encodeFormat [5] 1 16000 16).data_size + 36 ∧
    u32FromLE (encodeFormat [5] 1 16000 16).data_size = ([5] : List Nat).length :=
  encode_derived_fields [5] 1 16000 16 (by decide) (by decide) (by decide)
    (by decide) (by decide) (by decide)

/-- Counterexample to claim C3: with `bits_per_sample = 65535` and
`num_channels = 65535` (empty payload, sampling rate 1) `encode` does not
return an overflow error to the caller: the unchecked `u16` multiplication
for `block_alignment` overflows, which panics in a debug build and silently
wraps in a release build; in neither build is an error value returned. -/
theorem encode_overflow_inputs_no_error_cex :
    encode [] 65535 1 65535 = EncodeResult.panic ∧
    EncodeResult.panic ≠ EncodeResult.overflow := by
  constructor
  · decide
  · decide

/-- Claim C3 amended: the only condition `encode` surfaces as an error value
is a payload whose length does not fit the 32-bit `data_size` field; an
oversized `byte_rate` or `block_alignment` derivation is never surfaced as an
error, as the inputs `bits_per_sample = 65535`, `num_channels = 65535` show
(the multiplication overflow is a debug-build panic, a silent wrap in
release). -/
theorem encode_overflow_error_only_data_size :
    (∀ (data : List Nat) (c r b : Nat),
      encode data c r b = EncodeResult.overflow ↔ 4294967296 ≤ data.length) ∧
    encode [] 65535 1 65535 = EncodeResult.panic := by
  refine ⟨fun data c r b => ?_, by decide⟩
  unfold encode
  split
  · simp [*]
  · split
    · simp_all
    · split
      · simp_all
      · split
        · simp_all
        · split <;> simp_all

/-- Counterexample to claim C4: on a `Format` whose every field is a valid
WAVE-PCM header value except `num_channels = 0`, `check` reports no violation
at all — the source has no positivity check on `num_channels` (or on any other
numeric field), only a vacuous array-length comparison. -/
theorem check_zero_num_channels_no_violation_cex :
    check formatZeroChannels = Except.ok () := by decide

/-- Claim C4 amended: `check` validates no positivity at all; on any `Format`
whose tags are the expected constants, whose `fmt_chunk_size` decodes to 16
and `fmt_code` to 1 and whose payload is non-empty, `check` succeeds even
though `num_channels` is zero. -/
theorem check_ignores_zero_num_channels (f : Format) (h0 : f.num_channels = (0, 0))
    (h1 : byte4ToList f.riff_tag = riffBytes)
    (h2 : byte4ToList f.wave_tag = waveBytes)
    (h3 : byte4ToList f.fmt_chunk_tag = fmtBytes)
    (h4 : u32FromLE f.fmt_chunk_size = 16)
    (h5 : u16FromLE f.fmt_code = 1)
    (h6 : byte4ToList f.data_tag = dataBytes)
    (h7 : f.data ≠ []) :
    check f = Except.ok () := by
  have v1 : validUtf8 riffBytes = true := by decide
  have v2 : validUtf8 waveBytes = true := by decide
  have v3 : validUtf8 fmtBytes = true := by decide
  have v4 : validUtf8 dataBytes = true := by decide
  simp [check, h1, h2, h3, h4, h5, h6, h7, v1, v2, v3, v4, byte4Len, byte2Len]

/-- Witness for the amended C4, on a second concrete zero-channel header. -/
theorem check_ignores_zero_num_channels_witness :
    check formatZeroChannelsB = Except.ok () :=
  check_ignores_zero_num_channels formatZeroChannelsB (by decide) (by decide)
    (by decide) (by decide) (by decide) (by decide) (by decide) (by decide)

/-- Claim C5: on a byte source made of any 44-byte header followed by any
remainder, `decode` consumes exactly the 44 header bytes as thirteen raw
uninterpreted fields in the order of section 3, then reads the payload
bounded exactly by the little-endian `data_size` just read; it succeeds with
no validation of tags or magic values whatever the bytes are. -/
theorem decode_mechanical_header_payload (hdr rest : List Nat)
    (hlen : hdr.length = 44) :
    decode (hdr ++ rest) =
      .ok {
        riff_tag := (hdr.getD 0 0, hdr.getD 1 0, hdr.getD 2 0, hdr.getD 3 0)
        total_size := (hdr.getD 4 0, hdr.getD 5 0, hdr.getD 6 0, hdr.getD 7 0)
        wave_tag := (hdr.getD 8 0, hdr.getD 9 0, hdr.getD 10 0, hdr.getD 11 0)
        fmt_chunk_tag := (hdr.getD 12 0, hdr.getD 13 0, hdr.getD 14 0, hdr.getD 15 0)
        fmt_chunk_size := (hdr.getD 16 0, hdr.getD 17 0, hdr.getD 18 0, hdr.getD 19 0)
        fmt_code := (hdr.getD 20 0, hdr.getD 21 0)
        num_channels := (hdr.getD 22 0, hdr.getD 23 0)
        sampling_rate := (hdr.getD 24 0, hdr.getD 25 0, hdr.getD 26 0, hdr.getD 27 0)
        byte_rate := (hdr.getD 28 0, hdr.getD 29 0, hdr.getD 30 0, hdr.getD 31 0)
        block_alignment := (hdr.getD 32 0, hdr.getD 33 0)
        bits_per_sample := (hdr.getD 34 0, hdr.getD 35 0)
        data_tag := (hdr.getD 36 0, hdr.getD 37 0, hdr.getD 38 0, hdr.getD 39 0)
        data_size := (hdr.getD 40 0, hdr.getD 41 0, hdr.getD 42 0, hdr.getD 43 0)
        data := rest.take
          (u32FromLE (hdr.getD 40 0, hdr.getD 41 0, hdr.getD 42 0, hdr.getD 43 0)) } := by
  have hg : ∀ i, i < 44 → (hdr ++ rest).getD i 0 = hdr.getD i 0 := by
    intro i hi
    rw [List.getD_append]
    omega
  have hdrop : (hdr ++ rest).drop 44 = rest := by
    rw [← hlen, List.drop_left]
  rw [decode_eq]
  rw [hdrop]
  rw [hg 0 (by omega), hg 1 (by omega), hg 2 (by omega), hg 3 (by omega),
    hg 4 (by omega), hg 5 (by omega), hg 6 (by omega), hg 7 (by omega),
    hg 8 (by omega), hg 9 (by omega), hg 10 (by omega), hg 11 (by omega),
    hg 12 (by omega), hg 13 (by omega), hg 14 (by omega), hg 15 (by omega),
    hg 16 (by omega), hg 17 (by omega), hg 18 (by omega), hg 19 (by omega),
    hg 20 (by omega), hg 21 (by omega), hg 22 (by omega), hg 23 (by omega),
    hg 24 (by omega), hg 25 (by omega), hg 26 (by omega), hg 27 (by omega),
    hg 28 (by omega), hg 29 (by omega), hg 30 (by omega), hg 31 (by omega),
    hg 32 (by omega), hg 33 (by omega), hg 34 (by omega), hg 35 (by omega),
    hg 36 (by omega), hg 37 (by omega), hg 38 (by omega), hg 39 (by omega),
    hg 40 (by omega), hg 41 (by omega), hg 42 (by omega), hg 43 (by omega)]

/-- Witness for C5: a concrete 44-byte header of bytes 0 to 43 followed by a
3-byte remainder; every field is the raw slice at its offset and the payload
is the whole remainder since the declared `data_size` exceeds it. -/
theorem decode_mechanical_header_payload_witness :
    decode ([0, 1, 2, 3, 4, 5, 6, 7, 8, 9, 10, 11, 12, 13, 14, 15, 16, 17, 18, 19,
        20, 21, 22, 23, 24, 25, 26, 27, 28, 29, 30, 31, 32, 33, 34, 35, 36, 37, 38,
        39, 40, 41, 42, 43] ++ [9, 9, 9]) =
      .ok {
        riff_tag := (0, 1, 2, 3)
        total_size := (4, 5, 6, 7)
        wave_tag := (8, 9, 10, 11)
        fmt_chunk_tag := (12, 13, 14, 15)
        fmt_chunk_size := (16, 17, 18, 19)
        fmt_code := (20, 21)
        num_channels := (22, 23)
        sampling_rate := (24, 25, 26, 27)
        byte_rate := (28, 29, 30, 31)
        block_alignment := (32, 33)
        bits_per_sample := (34, 35)
        data_tag := (36, 37, 38, 39)
        data_size := (40, 41, 42, 43)
        data := [9, 9, 9] } := by
  rw [decode_mechanical_header_payload _ [9, 9, 9] (by decide)]
  decide

/-- Claim C6: `decode` never aborts on any byte source: a source ending before
the 44 header bytes yields fields whose missing bytes are zero (`getD` with
default 0), a payload shorter than the declared `data_size` is returned
truncated to the bytes actually available (`take` on the remainder), and,
`decode` being a pure function of the byte list, the result on identical
input is identical across runs. -/
theorem decode_zero_fill_truncation_deterministic (bs : List Nat) :
    decode bs =
      .ok {
        riff_tag := (bs.getD 0 0, bs.getD 1 0, bs.getD 2 0, bs.getD 3 0)
        total_size := (bs.getD 4 0, bs.getD 5 0, bs.getD 6 0, bs.getD 7 0)
        wave_tag := (bs.getD 8 0, bs.getD 9 0, bs.getD 10 0, bs.getD 11 0)
        fmt_chunk_tag := (bs.getD 12 0, bs.getD 13 0, bs.getD 14 0, bs.getD 15 0)
        fmt_chunk_size := (bs.getD 16 0, bs.getD 17 0, bs.getD 18 0, bs.getD 19 0)
        fmt_code := (bs.getD 20 0, bs.getD 21 0)
        num_channels := (bs.getD 22 0, bs.getD 23 0)
        sampling_rate := (bs.getD 24 0, bs.getD 25 0, bs.getD 26 0, bs.getD 27 0)
        byte_rate := (bs.getD 28 0, bs.getD 29 0, bs.getD 30 0, bs.getD 31 0)
        block_alignment := (bs.getD 32 0, bs.getD 33 0)
        bits_per_sample := (bs.getD 34 0, bs.getD 35 0)
        data_tag := (bs.getD 36 0, bs.getD 37 0, bs.getD 38 0, bs.getD 39 0)
        data_size := (bs.getD 40 0, bs.getD 41 0, bs.getD 42 0, bs.getD 43 0)
        data := (bs.drop 44).take
          (u32FromLE (bs.getD 40 0, bs.getD 41 0, bs.getD 42 0, bs.getD 43 0)) } :=
  decode_eq bs

/-- Claim C7: on any `Format` whose `riff_tag` holds the ASCII bytes of RIFX
(in particular one that is valid in every other field), `check` reports
exactly one violation, and it names the `riff_tag` field. -/
theorem check_corrupt_riff_single_violation (f : Format)
    (h : f.riff_tag = (82, 73, 70, 88)) :
    checkViolations f = [CheckErr.riffTag] := by
  have v : validUtf8 [82, 73, 70, 88] = true := by decide
  simp [checkViolations, check, h, byte4ToList, riffBytes, v]

/-- Witness for C7: a concrete header valid except for an ASCII RIFX
`riff_tag`. -/
theorem check_corrupt_riff_single_violation_witness :
    checkViolations formatBadRiff = [CheckErr.riffTag] :=
  check_corrupt_riff_single_violation formatBadRiff (by decide)

/-- Claim C8: `encode` with two channels, 44100 Hz, 16 bits per sample and a
1000-byte payload succeeds, and `check` on its result reports zero
violations. -/
theorem check_accepts_encode_c2_r44100_b16 :
    encode (List.replicate 1000 1) 2 44100 16 =
      .ok (encodeFormat (List.replicate 1000 1) 2 44100 16) ∧
    check (encodeFormat (List.replicate 1000 1) 2 44100 16) = .ok () := by
  have hlen : (List.replicate 1000 1).length = 1000 := List.length_replicate 1000 1
  have hne : List.replicate 1000 1 ≠ [] := List.length_pos.mp (by rw [hlen]; omega)
  constructor
  · exact encode_eq_ok _ 2 44100 16 (by omega) (by rw [hlen]; omega) (by omega) (by omega)
  · exact check_encodeFormat _ 2 44100 16 hne

/-- Claim C9 (implicit): `check` reports at most one failure per call — it
walks the fields in the fixed order and returns at the first failing check,
so no invocation ever yields two or more violations. -/
theorem check_reports_at_most_one_violation (f : Format) :
    (checkViolations f).length ≤ 1 := by
  unfold checkViolations
  cases check f <;> simp

/-- Claim C10 (implicit): whenever `encode` returns a `Format` and the payload
is non-empty, `check` on that `Format` succeeds, even for degenerate
parameters such as zero channels, zero sampling rate or zero bit depth, since
`check` never inspects the numeric parameter fields. -/
theorem check_succeeds_on_encode_nonempty (data : List Nat) (c r b : Nat)
    (wf : Format) (h : encode data c r b = .ok wf) (hd : data ≠ []) :
    check wf = .ok () := by
  unfold encode at h
  split at h
  · exact absurd h (by simp)
  · split at h
    · exact absurd h (by simp)
    · split at h
      · exact absurd h (by simp)
      · split at h
        · exact absurd h (by simp)
        · split at h
          · exact absurd h (by simp)
          · cases h
            exact check_encodeFormat data c r b hd

/-- Witness for C10: `encode` at the degenerate parameters zero channels,
zero sampling rate, zero bit depth with payload `[1]`, whose result passes
`check`. -/
theorem check_succeeds_on_encode_nonempty_witness :
    check (encodeFormat [1] 0 0 0) = .ok () :=
  check_succeeds_on_encode_nonempty [1] 0 0 0 (encodeFormat [1] 0 0 0)
    (by decide) (by decide)
